import Mathlib

/-!
# hello-bbdemo

A shallow embedding of `meta-bbdemo/recipes-apps/hello-bbdemo/files/hello-bbdemo.c`
and the properties of its `main` function.

Standard output is an explicit value of type `Str` that every `printf` extends.
The two operating-system queries `getpid()` and `getuid()` are inputs of `main`.
-/


namespace HelloBBDemo

/-- Text is a list of characters. A C string is represented by its content, the
characters in front of the terminating NUL. -/
abbrev Str := List Char

/-- The value an `int` holds when it is given the 32 bits of `x`: the two's-complement
reading of `x` modulo `2 ^ 32`. -/
def int32_of (x : Int) : Int := (x + 2 ^ 31) % 2 ^ 32 - 2 ^ 31

/-- The `%d` conversion of `printf`: its 32-bit argument is read as a signed `int` and
written in decimal, with a leading minus sign when it is negative. -/
def fmt_d (x : Int) : Str :=
  if int32_of x < 0 then '-' :: Nat.toDigits 10 (int32_of x).natAbs
  else Nat.toDigits 10 (int32_of x).toNat

/-- What `main` leaves behind: the text written to standard output and the value it
returns. -/
structure Result where
  stdout : Str
  status : Int
deriving DecidableEq, Repr

/-- The loop `for (int i = 1; i < argc; i++) printf("%s ", argv[i]);`, entered at index `i`
with `out` already written. Each unfolding costs one unit of fuel; `none` means the fuel
ran out before the loop condition failed. -/
def echo_loop (argc : Int) (argv : List Str) : Nat → Int → Str → Option Str
  | 0, _, _ => none
  | fuel + 1, i, out =>
    if i < argc then
      echo_loop argc argv fuel (i + 1) (out ++ (argv.getD i.toNat [] ++ " ".toList))
    else some out

/-- The function `main` of `hello-bbdemo.c`. `pid` is what `getpid()` returns and `uid`
what `getuid()` returns. -/
def main (argc : Int) (argv : List Str) (pid : Int) (uid : Nat) : Option Result := do
  let out : Str := "Hello from BBDemo!\n".toList
  let out := out ++ "This is a custom application built with Yocto/BitBake.\n".toList
  let out ←
    if argc > 1 then do
      let out := out ++ "Arguments received: ".toList
      let out ← echo_loop argc argv argc.toNat 1 out
      pure (out ++ "\n".toList)
    else pure out
  let out := out ++ "System information:\n".toList
  let out := out ++ ("  PID: ".toList ++ fmt_d pid ++ "\n".toList)
  let out := out ++ ("  UID: ".toList ++ fmt_d (uid : Int) ++ "\n".toList)
  pure { stdout := out, status := 0 }

/-! ## Vocabulary of the specification -/

/-- Every token followed by exactly one space, in the order of the list. -/
def each_then_space : List Str → Str
  | [] => []
  | t :: ts => t ++ ' ' :: each_then_space ts

/-- The pieces of a text between its newline characters. A text with `k` newlines has
`k + 1` pieces; the piece after a final newline is empty. -/
def splitLines : Str → List Str
  | [] => [[]]
  | c :: cs =>
    if c = '\n' then [] :: splitLines cs
    else
      match splitLines cs with
      | [] => [[c]]
      | l :: ls => (c :: l) :: ls

/-- How many lines of a text begin with the label `Arguments received: `. -/
def labelLines (out : Str) : Nat :=
  (splitLines out).countP (fun l => "Arguments received: ".toList.isPrefixOf l)

/-- The optional block of section 6 of the specification: nothing when there is no extra
token, otherwise the label, every token followed by a space, and a newline. -/
def arg_block (toks : List Str) : Str :=
  if toks = [] then []
  else "Arguments received: ".toList ++ each_then_space toks ++ "\n".toList

/-! ## The echo loop -/

theorem echo_loop_from (argv : List Str) :
    ∀ (fuel k : Nat) (out : Str), 0 < fuel → argv.length < k + fuel →
      echo_loop (argv.length : Int) argv fuel (k : Int) out
        = some (out ++ each_then_space (argv.drop k)) := by
  intro fuel
  induction fuel with
  | zero =>
    intro k out h0 _
    omega
  | succ fuel ih =>
    intro k out _ h
    unfold echo_loop
    by_cases hk : k < argv.length
    · have hlt : (k : Int) < (argv.length : Int) := by exact_mod_cast hk
      rw [if_pos hlt]
      have hstep : ((k : Int) + 1) = ((k + 1 : Nat) : Int) := by push_cast; rfl
      rw [hstep, ih (k + 1) _ (by omega) (by omega)]
      have hdrop : argv.drop k = argv[k] :: argv.drop (k + 1) := by
        simp
      have hget : argv.getD (k : Int).toNat [] = argv[k] := by
        simp [List.getD, hk]
      rw [hdrop, hget]
      simp [each_then_space]
    · have hlt : ¬ ((k : Int) < (argv.length : Int)) := by exact_mod_cast hk
      rw [if_neg hlt]
      have hdrop : argv.drop k = [] := by
        apply List.drop_eq_nil_of_le
        omega
      simp [hdrop, each_then_space]

theorem echo_loop_main (argv : List Str) (out : Str) (h : 1 < argv.length) :
    echo_loop (argv.length : Int) argv (argv.length : Int).toNat 1 out
      = some (out ++ each_then_space (argv.drop 1)) := by
  have h1 := echo_loop_from argv argv.length 1 out (by omega) (by omega)
  simpa using h1

theorem main_run (argv : List Str) (pid : Int) (uid : Nat) :
    main (argv.length : Int) argv pid uid
      = some
          { stdout :=
              "Hello from BBDemo!\n".toList
                ++ "This is a custom application built with Yocto/BitBake.\n".toList
                ++ arg_block (argv.drop 1)
                ++ "System information:\n".toList
                ++ ("  PID: ".toList ++ fmt_d pid ++ "\n".toList)
                ++ ("  UID: ".toList ++ fmt_d (uid : Int) ++ "\n".toList),
            status := 0 } := by
  unfold main
  by_cases h : 1 < argv.length
  · have hc : (argv.length : Int) > 1 := by exact_mod_cast h
    have hne : argv.drop 1 ≠ [] := by
      intro h0
      have := congrArg List.length h0
      simp at this
      omega
    simp only [hc, if_true, echo_loop_main argv _ h, arg_block, hne, if_false]
    simp only [bind, Option.bind, pure, List.append_assoc]
  · have hc : ¬ ((argv.length : Int) > 1) := by exact_mod_cast h
    have he : argv.drop 1 = [] := List.drop_eq_nil_of_le (by omega)
    simp only [hc, if_false, arg_block, he, if_true]
    simp only [bind, Option.bind, pure, List.append_assoc, List.append_nil, List.nil_append]

/-! ## The characters `%d` writes -/

theorem digitChar_isDigit (n : Nat) : (Nat.digitChar (n % 10)).isDigit = true := by
  have h : n % 10 < 10 := Nat.mod_lt _ (by decide)
  interval_cases (n % 10) <;> decide

theorem toDigitsCore_isDigit :
    ∀ (fuel n : Nat) (acc : List Char), (∀ c ∈ acc, c.isDigit = true) →
      ∀ c ∈ Nat.toDigitsCore 10 fuel n acc, c.isDigit = true := by
  intro fuel
  induction fuel with
  | zero =>
    intro n acc hacc c hc
    simp only [Nat.toDigitsCore] at hc
    exact hacc c hc
  | succ fuel ih =>
    intro n acc hacc c hc
    have hcons : ∀ d ∈ Nat.digitChar (n % 10) :: acc, d.isDigit = true := by
      intro d hd
      rcases List.mem_cons.mp hd with rfl | hd
      · exact digitChar_isDigit n
      · exact hacc d hd
    simp only [Nat.toDigitsCore] at hc
    split at hc
    · exact hcons c hc
    · exact ih _ _ hcons c hc

theorem toDigits_isDigit (n : Nat) : ∀ c ∈ Nat.toDigits 10 n, c.isDigit = true := by
  intro c hc
  exact toDigitsCore_isDigit (n + 1) n [] (by simp) c hc

theorem fmt_d_chars (x : Int) : ∀ c ∈ fmt_d x, c = '-' ∨ c.isDigit = true := by
  intro c hc
  unfold fmt_d at hc
  split at hc
  · rcases List.mem_cons.mp hc with rfl | hc
    · exact Or.inl rfl
    · exact Or.inr (toDigits_isDigit _ c hc)
  · exact Or.inr (toDigits_isDigit _ c hc)

theorem fmt_d_no_newline (x : Int) : '\n' ∉ fmt_d x := by
  intro h
  rcases fmt_d_chars x _ h with h | h
  · exact absurd h (by decide)
  · exact absurd h (by decide)

theorem fmt_d_no_A (x : Int) : 'A' ∉ fmt_d x := by
  intro h
  rcases fmt_d_chars x _ h with h | h
  · exact absurd h (by decide)
  · exact absurd h (by decide)

/-! ## Lines -/

theorem splitLines_ne_nil (x : Str) : splitLines x ≠ [] := by
  cases x with
  | nil => simp [splitLines]
  | cons c cs =>
    unfold splitLines
    split
    · simp
    · split <;> simp

theorem splitLines_append_newline (x y : Str) (hx : '\n' ∉ x) :
    splitLines (x ++ '\n' :: y) = x :: splitLines y := by
  induction x with
  | nil => simp [splitLines]
  | cons c cs ih =>
    have hc : c ≠ '\n' := by
      intro h
      exact hx (by simp [h])
    have hcs : '\n' ∉ cs := by
      intro h
      exact hx (List.mem_cons_of_mem _ h)
    rw [List.cons_append, splitLines, if_neg hc, ih hcs]

theorem splitLines_of_no_newline (x : Str) (hx : '\n' ∉ x) : splitLines x = [x] := by
  induction x with
  | nil => simp [splitLines]
  | cons c cs ih =>
    have hc : c ≠ '\n' := by
      intro h
      exact hx (by simp [h])
    have hcs : '\n' ∉ cs := by
      intro h
      exact hx (List.mem_cons_of_mem _ h)
    simp only [splitLines, if_neg hc, ih hcs]

theorem each_then_space_no_newline (A : List Str) (h : ∀ t ∈ A, '\n' ∉ t) :
    '\n' ∉ each_then_space A := by
  induction A with
  | nil => simp [each_then_space]
  | cons t ts ih =>
    have ht : '\n' ∉ t := h t (List.mem_cons_self _ _)
    have hts : '\n' ∉ each_then_space ts :=
      ih (fun u hu => h u (List.mem_cons_of_mem _ hu))
    have hsp : '\n' ≠ ' ' := by decide
    simp only [each_then_space, List.mem_append, List.mem_cons, not_or]
    exact ⟨ht, hsp, hts⟩

theorem isPrefixOf_head_ne (a b : Char) (l m : Str) (h : a ≠ b) :
    (a :: l).isPrefixOf (b :: m) = false := by
  simp [List.isPrefixOf, h]

theorem each_then_space_intercalate (A : List Str) (hA : A ≠ []) :
    each_then_space A = List.intercalate " ".toList A ++ " ".toList := by
  induction A with
  | nil => exact absurd rfl hA
  | cons t ts ih =>
    cases ts with
    | nil => simp [each_then_space, List.intercalate]
    | cons u us =>
      have ih2 := ih (by simp)
      rw [each_then_space, ih2]
      simp [List.intercalate, List.intersperse]

/-- Output of a run with at least one extra token. -/
theorem main_run_args (prog : Str) (A : List Str) (pid : Int) (uid : Nat) (hA : A ≠ []) :
    main ((prog :: A).length : Int) (prog :: A) pid uid
      = some
          { stdout :=
              "Hello from BBDemo!\n".toList
                ++ "This is a custom application built with Yocto/BitBake.\n".toList
                ++ ("Arguments received: ".toList ++ each_then_space A ++ "\n".toList)
                ++ "System information:\n".toList
                ++ ("  PID: ".toList ++ fmt_d pid ++ "\n".toList)
                ++ ("  UID: ".toList ++ fmt_d (uid : Int) ++ "\n".toList),
            status := 0 } := by
  rw [main_run]
  simp only [List.drop_succ_cons, List.drop_zero, arg_block, if_neg hA]

/-- Output of a run whose `argc` is at most one: `argv` is not read at all. -/
theorem main_run_no_args (argc : Int) (argv : List Str) (pid : Int) (uid : Nat)
    (h : argc ≤ 1) :
    main argc argv pid uid
      = some
          { stdout :=
              "Hello from BBDemo!\n".toList
                ++ "This is a custom application built with Yocto/BitBake.\n".toList
                ++ "System information:\n".toList
                ++ ("  PID: ".toList ++ fmt_d pid ++ "\n".toList)
                ++ ("  UID: ".toList ++ fmt_d (uid : Int) ++ "\n".toList),
            status := 0 } := by
  have hc : ¬ (argc > 1) := by omega
  unfold main
  simp only [hc, if_false]
  simp only [bind, Option.bind, pure, List.append_assoc]

/-! ## The argument echo -/

/-- C1: when at least one extra token follows the program name, `main` returns and its
output is the two banner lines, then exactly `Arguments received: ` followed by every token
in the original order, each followed by one space (the last one too), then one newline, and
after that the `System information:` header with the PID and UID lines. -/
theorem c1_echo_between_banner_and_header (prog : Str) (A : List Str) (pid : Int) (uid : Nat)
    (hA : A ≠ []) :
    main ((prog :: A).length : Int) (prog :: A) pid uid
      = some
          { stdout :=
              "Hello from BBDemo!\nThis is a custom application built with Yocto/BitBake.\n".toList
                ++ ("Arguments received: ".toList ++ each_then_space A ++ "\n".toList)
                ++ ("System information:\n".toList
                    ++ ("  PID: ".toList ++ fmt_d pid ++ "\n".toList
                    ++ ("  UID: ".toList ++ fmt_d (uid : Int) ++ "\n".toList))),
            status := 0 } := by
  rw [main_run_args prog A pid uid hA]
  have hb :
      "Hello from BBDemo!\nThis is a custom application built with Yocto/BitBake.\n".toList
        = "Hello from BBDemo!\n".toList
            ++ "This is a custom application built with Yocto/BitBake.\n".toList := by
    rfl
  rw [hb]
  simp only [List.append_assoc]

/-- C1 at the tokens `foo`, `bar`: the text between the banner and the header is
`Arguments received: foo bar ` and a newline. -/
theorem c1_echo_between_banner_and_header_witness :
    ["foo".toList, "bar".toList] ≠ [] ∧
    main 3 ["hello-bbdemo".toList, "foo".toList, "bar".toList] 4242 1000
      = some
          { stdout :=
              "Hello from BBDemo!\nThis is a custom application built with Yocto/BitBake.\n".toList
                ++ "Arguments received: foo bar \n".toList
                ++ "System information:\n  PID: 4242\n  UID: 1000\n".toList,
            status := 0 } :=
  ⟨by decide,
   c1_echo_between_banner_and_header "hello-bbdemo".toList ["foo".toList, "bar".toList]
     4242 1000 (by decide)⟩

set_option maxRecDepth 20000 in
/-- C2, as stated, fails: for the tokens `foo`, `bar` the output does not contain the label
followed by `foo bar` and then immediately a newline, because a space follows `bar`. -/
theorem c2_joined_then_newline_counterexample :
    ∃ r, main 3 ["hello-bbdemo".toList, "foo".toList, "bar".toList] 4242 1000 = some r ∧
      ¬ ("Arguments received: ".toList
            ++ List.intercalate " ".toList ["foo".toList, "bar".toList]
            ++ "\n".toList <:+: r.stdout) :=
  ⟨_, rfl, by decide⟩

/-- C2, amended: for a non-empty list of extra tokens the output of `main` contains the label
`Arguments received: `, immediately followed by the tokens joined by single spaces in the
original order, then one more space, and then a newline. -/
theorem c2_joined_space_newline (prog : Str) (A : List Str) (pid : Int) (uid : Nat)
    (hA : A ≠ []) :
    ∃ r, main ((prog :: A).length : Int) (prog :: A) pid uid = some r ∧
      ("Arguments received: ".toList ++ List.intercalate " ".toList A ++ " ".toList
          ++ "\n".toList) <:+: r.stdout := by
  refine ⟨_, main_run_args prog A pid uid hA, ?_⟩
  refine ⟨"Hello from BBDemo!\n".toList
            ++ "This is a custom application built with Yocto/BitBake.\n".toList,
          "System information:\n".toList
            ++ ("  PID: ".toList ++ fmt_d pid ++ "\n".toList)
            ++ ("  UID: ".toList ++ fmt_d (uid : Int) ++ "\n".toList), ?_⟩
  rw [each_then_space_intercalate A hA]
  simp only [List.append_assoc]

/-- C2 (amended) at the tokens `foo`, `bar`. -/
theorem c2_joined_space_newline_witness :
    ["foo".toList, "bar".toList] ≠ [] ∧
    ∃ r, main 3 ["hello-bbdemo".toList, "foo".toList, "bar".toList] 4242 1000 = some r ∧
      "Arguments received: foo bar \n".toList <:+: r.stdout :=
  ⟨by decide,
   c2_joined_space_newline "hello-bbdemo".toList ["foo".toList, "bar".toList] 4242 1000
     (by decide)⟩

/-- C3: with no extra token (`argc` at most one) `main` returns and its output is exactly
the five newline-terminated lines `Hello from BBDemo!`, `This is a custom application built
with Yocto/BitBake.`, `System information:`, the PID line and the UID line (with the numbers
as `%d` writes them); the text `Arguments received` occurs nowhere in it. -/
theorem c3_no_arguments_five_lines (argc : Int) (argv : List Str) (pid : Int) (uid : Nat)
    (h : argc ≤ 1) :
    ∃ r, main argc argv pid uid = some r ∧
      r.stdout
        = "Hello from BBDemo!\n".toList
            ++ "This is a custom application built with Yocto/BitBake.\n".toList
            ++ "System information:\n".toList
            ++ ("  PID: ".toList ++ fmt_d pid ++ "\n".toList)
            ++ ("  UID: ".toList ++ fmt_d (uid : Int) ++ "\n".toList) ∧
      splitLines r.stdout
        = ["Hello from BBDemo!".toList,
           "This is a custom application built with Yocto/BitBake.".toList,
           "System information:".toList,
           "  PID: ".toList ++ fmt_d pid,
           "  UID: ".toList ++ fmt_d (uid : Int),
           []] ∧
      ¬ ("Arguments received".toList <:+: r.stdout) := by
  refine ⟨_, main_run_no_args argc argv pid uid h, rfl, ?_, ?_⟩
  · have e1 : "Hello from BBDemo!\n".toList = "Hello from BBDemo!".toList ++ ['\n'] := by rfl
    have e2 : "This is a custom application built with Yocto/BitBake.\n".toList
        = "This is a custom application built with Yocto/BitBake.".toList ++ ['\n'] := by rfl
    have e3 : "System information:\n".toList = "System information:".toList ++ ['\n'] := by rfl
    have e4 : "\n".toList = ['\n'] := by rfl
    have n1 : '\n' ∉ "Hello from BBDemo!".toList := by decide
    have n2 : '\n' ∉ "This is a custom application built with Yocto/BitBake.".toList := by
      decide
    have n3 : '\n' ∉ "System information:".toList := by decide
    have n4 : '\n' ∉ "  PID: ".toList ++ fmt_d pid := by
      simp only [List.mem_append, not_or]
      exact ⟨by decide, fmt_d_no_newline pid⟩
    have n5 : '\n' ∉ "  UID: ".toList ++ fmt_d (uid : Int) := by
      simp only [List.mem_append, not_or]
      exact ⟨by decide, fmt_d_no_newline _⟩
    simp only [e1, e2, e3, e4, List.append_assoc, List.singleton_append, List.cons_append,
      List.nil_append]
    rw [splitLines_append_newline _ _ n1, splitLines_append_newline _ _ n2,
      splitLines_append_newline _ _ n3]
    rw [← List.append_assoc, splitLines_append_newline _ _ n4]
    rw [← List.append_assoc, splitLines_append_newline _ _ n5]
    rfl
  · intro hin
    have hA : 'A' ∈ "Arguments received".toList := by decide
    have hmem := hin.subset hA
    have a1 : 'A' ∉ "Hello from BBDemo!\n".toList := by decide
    have a2 : 'A' ∉ "This is a custom application built with Yocto/BitBake.\n".toList := by
      decide
    have a3 : 'A' ∉ "System information:\n".toList := by decide
    have a4 : 'A' ∉ "  PID: ".toList := by decide
    have a5 : 'A' ∉ "  UID: ".toList := by decide
    have a6 : 'A' ∉ "\n".toList := by decide
    have a7 := fmt_d_no_A pid
    have a8 := fmt_d_no_A (uid : Int)
    simp only [List.mem_append, a1, a2, a3, a4, a5, a6, a7, a8, or_self] at hmem

/-- C3 at `argc = 1`, pid 4242 and uid 1000. -/
theorem c3_no_arguments_five_lines_witness :
    (1 : Int) ≤ 1 ∧
    ∃ r, main 1 ["hello-bbdemo".toList] 4242 1000 = some r ∧
      r.stdout
        = "Hello from BBDemo!\n".toList
            ++ "This is a custom application built with Yocto/BitBake.\n".toList
            ++ "System information:\n".toList
            ++ ("  PID: ".toList ++ fmt_d 4242 ++ "\n".toList)
            ++ ("  UID: ".toList ++ fmt_d ((1000 : Nat) : Int) ++ "\n".toList) ∧
      splitLines r.stdout
        = ["Hello from BBDemo!".toList,
           "This is a custom application built with Yocto/BitBake.".toList,
           "System information:".toList,
           "  PID: ".toList ++ fmt_d 4242,
           "  UID: ".toList ++ fmt_d ((1000 : Nat) : Int),
           []] ∧
      ¬ ("Arguments received".toList <:+: r.stdout) :=
  ⟨by decide, c3_no_arguments_five_lines 1 ["hello-bbdemo".toList] 4242 1000 (by decide)⟩

/-- C4: for every argument vector, pid and uid, `main` returns and the status it returns
is 0. -/
theorem c4_exit_status_zero (argv : List Str) (pid : Int) (uid : Nat) :
    (main (argv.length : Int) argv pid uid).map Result.status = some 0 := by
  rw [main_run]
  rfl

set_option maxRecDepth 20000 in
/-- C5, as stated, fails: a single token that holds a newline followed by the label text
makes two lines of the output begin with `Arguments received: `. -/
theorem c5_one_label_line_counterexample :
    ∃ r, main 2 ["hello-bbdemo".toList, "x\nArguments received: y".toList] 4242 1000 = some r ∧
      labelLines r.stdout = 2 ∧ ¬ (labelLines r.stdout = 1) :=
  ⟨_, rfl, by decide, by decide⟩

/-- C5, amended: for a non-empty list of extra tokens none of which contains a newline
character, exactly one line of the output of `main` begins with `Arguments received: `. -/
theorem c5_one_label_line (prog : Str) (A : List Str) (pid : Int) (uid : Nat)
    (hA : A ≠ []) (hnl : ∀ t ∈ A, '\n' ∉ t) :
    ∃ r, main ((prog :: A).length : Int) (prog :: A) pid uid = some r ∧
      labelLines r.stdout = 1 := by
  refine ⟨_, main_run_args prog A pid uid hA, ?_⟩
  have e1 : "Hello from BBDemo!\n".toList = "Hello from BBDemo!".toList ++ ['\n'] := by rfl
  have e2 : "This is a custom application built with Yocto/BitBake.\n".toList
      = "This is a custom application built with Yocto/BitBake.".toList ++ ['\n'] := by rfl
  have e3 : "System information:\n".toList = "System information:".toList ++ ['\n'] := by rfl
  have e4 : "\n".toList = ['\n'] := by rfl
  have n1 : '\n' ∉ "Hello from BBDemo!".toList := by decide
  have n2 : '\n' ∉ "This is a custom application built with Yocto/BitBake.".toList := by
    decide
  have n3 : '\n' ∉ "System information:".toList := by decide
  have n4 : '\n' ∉ "  PID: ".toList ++ fmt_d pid := by
    simp only [List.mem_append, not_or]
    exact ⟨by decide, fmt_d_no_newline pid⟩
  have n5 : '\n' ∉ "  UID: ".toList ++ fmt_d (uid : Int) := by
    simp only [List.mem_append, not_or]
    exact ⟨by decide, fmt_d_no_newline _⟩
  have n6 : '\n' ∉ "Arguments received: ".toList ++ each_then_space A := by
    simp only [List.mem_append, not_or]
    exact ⟨by decide, each_then_space_no_newline A hnl⟩
  have hlines :
      splitLines
          ("Hello from BBDemo!\n".toList
            ++ "This is a custom application built with Yocto/BitBake.\n".toList
            ++ ("Arguments received: ".toList ++ each_then_space A ++ "\n".toList)
            ++ "System information:\n".toList
            ++ ("  PID: ".toList ++ fmt_d pid ++ "\n".toList)
            ++ ("  UID: ".toList ++ fmt_d (uid : Int) ++ "\n".toList))
        = ["Hello from BBDemo!".toList,
           "This is a custom application built with Yocto/BitBake.".toList,
           "Arguments received: ".toList ++ each_then_space A,
           "System information:".toList,
           "  PID: ".toList ++ fmt_d pid,
           "  UID: ".toList ++ fmt_d (uid : Int),
           []] := by
    simp only [e1, e2, e3, e4, List.append_assoc, List.singleton_append, List.cons_append,
      List.nil_append]
    rw [splitLines_append_newline _ _ n1, splitLines_append_newline _ _ n2]
    rw [← List.append_assoc, splitLines_append_newline _ _ n6]
    rw [splitLines_append_newline _ _ n3]
    rw [← List.append_assoc, splitLines_append_newline _ _ n4]
    rw [← List.append_assoc, splitLines_append_newline _ _ n5]
    rfl
  have p1 : "Arguments received: ".toList.isPrefixOf "Hello from BBDemo!".toList = false := by
    decide
  have p2 : "Arguments received: ".toList.isPrefixOf
      "This is a custom application built with Yocto/BitBake.".toList = false := by
    decide
  have p3 : "Arguments received: ".toList.isPrefixOf
      ("Arguments received: ".toList ++ each_then_space A) = true := by
    rw [List.isPrefixOf_iff_prefix]
    exact ⟨_, rfl⟩
  have p4 : "Arguments received: ".toList.isPrefixOf "System information:".toList = false := by
    decide
  have p5 : "Arguments received: ".toList.isPrefixOf ("  PID: ".toList ++ fmt_d pid)
      = false :=
    isPrefixOf_head_ne 'A' ' ' "rguments received: ".toList (" PID: ".toList ++ fmt_d pid)
      (by decide)
  have p6 : "Arguments received: ".toList.isPrefixOf ("  UID: ".toList ++ fmt_d (uid : Int))
      = false :=
    isPrefixOf_head_ne 'A' ' ' "rguments received: ".toList
      (" UID: ".toList ++ fmt_d (uid : Int)) (by decide)
  have p7 : "Arguments received: ".toList.isPrefixOf ([] : Str) = false := by decide
  show labelLines _ = 1
  unfold labelLines
  rw [hlines]
  simp only [List.countP_cons, List.countP_nil, p1, p2, p3, p4, p5, p6, p7]
  rfl

/-- C5 (amended) at the tokens `foo`, `bar`. -/
theorem c5_one_label_line_witness :
    ["foo".toList, "bar".toList] ≠ [] ∧
    (∀ t ∈ ["foo".toList, "bar".toList], '\n' ∉ t) ∧
    ∃ r, main 3 ["hello-bbdemo".toList, "foo".toList, "bar".toList] 4242 1000 = some r ∧
      labelLines r.stdout = 1 :=
  ⟨by decide, by decide,
   c5_one_label_line "hello-bbdemo".toList ["foo".toList, "bar".toList] 4242 1000
     (by decide) (by decide)⟩

/-! ## The PID and UID lines -/

/-- A value that fits a non-negative `int` is written by `%d` as its decimal rendering. This
covers every pid, and every uid below `2 ^ 31`. -/
theorem fmt_d_of_lt (n : Nat) (h : n < 2 ^ 31) : fmt_d (n : Int) = Nat.toDigits 10 n := by
  have hw : int32_of (n : Int) = (n : Int) := by
    unfold int32_of
    omega
  unfold fmt_d
  rw [hw]
  have hn : ¬ ((n : Int) < 0) := by omega
  rw [if_neg hn]
  simp

/-- A uid from `2 ^ 31` on is written by `%d` with a leading minus sign. -/
theorem fmt_d_of_ge (n : Nat) (h1 : 2 ^ 31 ≤ n) (h2 : n < 2 ^ 32) :
    fmt_d (n : Int) = '-' :: Nat.toDigits 10 (2 ^ 32 - n) := by
  have hw : int32_of (n : Int) = (n : Int) - 2 ^ 32 := by
    unfold int32_of
    omega
  unfold fmt_d
  rw [hw]
  have hn : (n : Int) - 2 ^ 32 < 0 := by omega
  rw [if_pos hn]
  have habs : ((n : Int) - 2 ^ 32).natAbs = 2 ^ 32 - n := by omega
  rw [habs]

set_option maxRecDepth 20000 in
/-- C6 fails on the code at uid 3000000000: the PID line shows the pid, but the text after
`  UID: ` is `-1294967296`, which is not the decimal rendering `3000000000` of the uid. -/
theorem c6_uid_3000000000_printed_as_negative :
    main 1 ["hello-bbdemo".toList] 4242 3000000000
      = some
          { stdout :=
              ("Hello from BBDemo!\nThis is a custom application built with Yocto/BitBake.\n"
                ++ "System information:\n  PID: 4242\n  UID: -1294967296\n").toList,
            status := 0 } ∧
    Nat.toDigits 10 3000000000 = "3000000000".toList ∧
    fmt_d ((3000000000 : Nat) : Int) ≠ Nat.toDigits 10 3000000000 := by
  decide

set_option maxRecDepth 20000 in
/-- C7 fails on the code at uid 4294967294: the text after `  UID: ` is `-2`, which starts
with a minus sign. -/
theorem c7_uid_4294967294_printed_with_minus :
    main 1 ["hello-bbdemo".toList] 4242 4294967294
      = some
          { stdout :=
              ("Hello from BBDemo!\nThis is a custom application built with Yocto/BitBake.\n"
                ++ "System information:\n  PID: 4242\n  UID: -2\n").toList,
            status := 0 } ∧
    (fmt_d ((4294967294 : Nat) : Int)).head? = some '-' := by
  decide

/-! ## Order of the output -/

/-- C8: for every argument vector, pid and uid, `main` returns and its output starts with
the two banner lines, verbatim and in that order; the argument echo, if any, comes after
them. -/
theorem c8_banner_first (argv : List Str) (pid : Int) (uid : Nat) :
    ∃ r, main (argv.length : Int) argv pid uid = some r ∧
      "Hello from BBDemo!\nThis is a custom application built with Yocto/BitBake.\n".toList
        <+: r.stdout := by
  refine ⟨_, main_run argv pid uid, ?_⟩
  have hb :
      "Hello from BBDemo!\nThis is a custom application built with Yocto/BitBake.\n".toList
        = "Hello from BBDemo!\n".toList
            ++ "This is a custom application built with Yocto/BitBake.\n".toList := by
    rfl
  rw [hb]
  refine ⟨arg_block (argv.drop 1) ++ "System information:\n".toList
            ++ ("  PID: ".toList ++ fmt_d pid ++ "\n".toList)
            ++ ("  UID: ".toList ++ fmt_d (uid : Int) ++ "\n".toList), ?_⟩
  simp only [List.append_assoc]

/-- C9: for every argument vector, pid and uid, `main` returns and its output ends with the
`System information:` header, the PID line and the UID line, in that order and with nothing
after the UID line; what precedes them is the banner followed by the argument echo, if
any. -/
theorem c9_system_information_last (argv : List Str) (pid : Int) (uid : Nat) :
    ∃ r, main (argv.length : Int) argv pid uid = some r ∧
      ("System information:\n  PID: ".toList ++ fmt_d pid ++ "\n  UID: ".toList
          ++ fmt_d (uid : Int) ++ "\n".toList) <:+ r.stdout ∧
      ∃ mid,
        r.stdout
          = "Hello from BBDemo!\nThis is a custom application built with Yocto/BitBake.\n".toList
              ++ mid
              ++ ("System information:\n  PID: ".toList ++ fmt_d pid ++ "\n  UID: ".toList
                  ++ fmt_d (uid : Int) ++ "\n".toList) := by
  have hb :
      "Hello from BBDemo!\nThis is a custom application built with Yocto/BitBake.\n".toList
        = "Hello from BBDemo!\n".toList
            ++ "This is a custom application built with Yocto/BitBake.\n".toList := by
    rfl
  have hs1 : "System information:\n  PID: ".toList
      = "System information:\n".toList ++ "  PID: ".toList := by rfl
  have hs2 : "\n  UID: ".toList = "\n".toList ++ "  UID: ".toList := by rfl
  refine ⟨_, main_run argv pid uid, ?_, ?_⟩
  · refine ⟨"Hello from BBDemo!\n".toList
            ++ "This is a custom application built with Yocto/BitBake.\n".toList
            ++ arg_block (argv.drop 1), ?_⟩
    rw [hs1, hs2]
    simp only [List.append_assoc]
  · refine ⟨arg_block (argv.drop 1), ?_⟩
    rw [hb, hs1, hs2]
    simp only [List.append_assoc]

/-! ## The program name -/

/-- C10: two argument vectors of the same length that agree at every index from 1 on (so
they differ at most in `argv[0]`) give, with the same pid and uid, the same result of `main` (same output, same
exit status), and `main` returns on both; the entry `argv[0]` has no influence. -/
theorem c10_program_name_irrelevant (argv argv2 : List Str) (pid : Int) (uid : Nat)
    (hlen : argv.length = argv2.length)
    (hsame : ∀ i, 1 ≤ i → i < argv.length → argv[i]? = argv2[i]?) :
    main (argv.length : Int) argv pid uid = main (argv2.length : Int) argv2 pid uid ∧
    ∃ r, main (argv.length : Int) argv pid uid = some r := by
  have hdrop : argv.drop 1 = argv2.drop 1 := by
    apply List.ext_getElem?
    intro n
    rw [List.getElem?_drop, List.getElem?_drop]
    by_cases hn : 1 + n < argv.length
    · exact hsame (1 + n) (by omega) hn
    · rw [List.getElem?_eq_none (by omega), List.getElem?_eq_none (by omega)]
  refine ⟨?_, _, main_run argv pid uid⟩
  rw [main_run, main_run, hdrop]

/-- C10 at two vectors that differ in the program name only. -/
theorem c10_program_name_irrelevant_witness :
    ["hello-bbdemo".toList, "foo".toList].length = ["/usr/bin/hello".toList, "foo".toList].length ∧
    (∀ i, 1 ≤ i → i < ["hello-bbdemo".toList, "foo".toList].length →
      ["hello-bbdemo".toList, "foo".toList][i]? = ["/usr/bin/hello".toList, "foo".toList][i]?) ∧
    (main 2 ["hello-bbdemo".toList, "foo".toList] 4242 1000
        = main 2 ["/usr/bin/hello".toList, "foo".toList] 4242 1000 ∧
      ∃ r, main 2 ["hello-bbdemo".toList, "foo".toList] 4242 1000 = some r) :=
  have hsame : ∀ i, 1 ≤ i → i < ["hello-bbdemo".toList, "foo".toList].length →
      ["hello-bbdemo".toList, "foo".toList][i]? = ["/usr/bin/hello".toList, "foo".toList][i]? := by
    intro i hi1 hi2
    have hi : i = 1 := by
      simp only [List.length_cons, List.length_nil] at hi2
      omega
    subst hi
    rfl
  ⟨by decide, hsame,
   c10_program_name_irrelevant ["hello-bbdemo".toList, "foo".toList]
     ["/usr/bin/hello".toList, "foo".toList] 4242 1000 (by decide) hsame⟩

end HelloBBDemo